import Mathlib

/-!
Shallow embedding of the buffer-pool core of JarvistFth/db_445:
the LRU replacer (src/buffer/lru_replacer.cpp), the buffer pool
manager instance (src/buffer/buffer_pool_manager_instance.cpp) and the
parallel (sharded) buffer pool manager
(src/buffer/parallel_buffer_pool_manager.cpp), together with theorems
settling the specification claims about them.
-/

namespace DB445

abbrev FrameId := Nat
abbrev PageId := Nat

/-- LRU replacer state (LRUReplacer in src/buffer/lru_replacer.cpp):
the doubly linked recency list plus the frame-to-node map are modelled
as a single duplicate-free list of frame ids, most recently added
first; the map `cache_` contains exactly the ids on the list. -/
structure LRU where
  cache : List FrameId
  capacity : Nat
deriving DecidableEq, Repr

/-- LRUReplacer::Victim: if the cache is empty return none; otherwise
remove and return the least recently added frame (the node in front of
the sentinel tail, i.e. the last element of the list). -/
def LRU.victim (r : LRU) : Option FrameId × LRU :=
  match r.cache.getLast? with
  | none => (none, r)
  | some f => (some f, { r with cache := r.cache.dropLast })

/-- LRUReplacer::Pin: if the frame is tracked remove it, otherwise do
nothing. -/
def LRU.pin (r : LRU) (f : FrameId) : LRU :=
  if f ∈ r.cache then { r with cache := r.cache.erase f } else r

/-- LRUReplacer::Unpin: if the frame is already tracked this is a
no-op (recency is not refreshed); otherwise, if the cache has reached
capacity, the least recently added frame is dropped before the new one
is added at the most-recent end. -/
def LRU.unpin (r : LRU) (f : FrameId) : LRU :=
  if f ∈ r.cache then r
  else if r.capacity ≤ r.cache.length then
    { r with cache := f :: r.cache.dropLast }
  else
    { r with cache := f :: r.cache }

/-- LRUReplacer::Size. -/
def LRU.size (r : LRU) : Nat := r.cache.length

/-- Modelled from the spec: the Page class header is not among the
sources, only its callers are. Spec section 3 gives a frame's fields:
resident page identifier (or none if free), pin count, dirty flag and
the data buffer, here abstracted to a single value. -/
structure Frame where
  page_id : Option PageId
  pin_count : Int
  is_dirty : Bool
  data : Nat
deriving DecidableEq, Repr

/-- Modelled from the spec: a freshly constructed frame holds no page,
has pin count 0, is clean and its bytes are zeroed. -/
def Frame.empty : Frame := ⟨none, 0, false, 0⟩

/-- Pointwise update of a map, used for the frame array and the disk. -/
def updFn {α : Type} (m : Nat → α) (k : Nat) (v : α) : Nat → α :=
  fun q => if q = k then v else m q

/-- Lookup in the page table (std::unordered_map page_id to frame_id,
modelled as an association list with unique keys). -/
def ptLookup : List (PageId × FrameId) → PageId → Option FrameId
  | [], _ => none
  | (k, v) :: rest, p => if k = p then some v else ptLookup rest p

/-- Erase a key from the page table. -/
def ptErase (t : List (PageId × FrameId)) (k : PageId) : List (PageId × FrameId) :=
  t.filter (fun kv => kv.1 ≠ k)

/-- Erase the key held in a frame's page_id field; erasing the invalid
id (none) is a no-op, as in the C++ map. -/
def ptEraseOpt (t : List (PageId × FrameId)) : Option PageId → List (PageId × FrameId)
  | none => t
  | some p => ptErase t p

/-- Insert or overwrite a binding, as the C++ operator[] assignment. -/
def ptInsert (t : List (PageId × FrameId)) (k : PageId) (v : FrameId) :
    List (PageId × FrameId) :=
  (k, v) :: ptErase t k

/-- Buffer pool manager instance state
(BufferPoolManagerInstance in src/buffer/buffer_pool_manager_instance.cpp).
The frame array pages_ is modelled as a map from frame id to frame;
the disk collaborator is a map from page id to page content plus a log
of every WritePage call (key none stands for the invalid page id). -/
structure BPMI where
  pool_size : Nat
  num_instances : Nat
  instance_index : Nat
  next_page_id : Nat
  pages : FrameId → Frame
  page_table : List (PageId × FrameId)
  free_list : List FrameId
  replacer : LRU
  disk : PageId → Nat
  writes : List (Option PageId × Nat)

instance : Inhabited BPMI :=
  ⟨0, 1, 0, 0, fun _ => Frame.empty, [], [], ⟨[], 0⟩, fun _ => 0, []⟩

/-- The two-argument constructor: every frame starts on the free list
(ids 0 .. pool_size - 1 in order), the page table and the replacer are
empty and the page-id counter is seeded at the instance index. -/
def BPMI.init (pool_size num_instances instance_index : Nat) (disk : PageId → Nat) : BPMI :=
  { pool_size := pool_size
    num_instances := num_instances
    instance_index := instance_index
    next_page_id := instance_index
    pages := fun _ => Frame.empty
    page_table := []
    free_list := List.range pool_size
    replacer := ⟨[], pool_size⟩
    disk := disk
    writes := [] }

/-- BufferPoolManagerInstance::AllocatePage: return the current
counter value and advance it by the total number of instances. -/
def BPMI.allocatePage (s : BPMI) : PageId × BPMI :=
  (s.next_page_id, { s with next_page_id := s.next_page_id + s.num_instances })

/-- The shared write-back step of NewPgImp, FetchPgImp and the body of
FlushAllPgsImp: if the frame is dirty, write its bytes to disk under
the frame's own page id and clear the dirty flag. -/
def BPMI.writeBackIfDirty (s : BPMI) (f : FrameId) : BPMI :=
  let frm := s.pages f
  if frm.is_dirty then
    { s with
      pages := updFn s.pages f { frm with is_dirty := false }
      disk := match frm.page_id with
              | some pid => updFn s.disk pid frm.data
              | none => s.disk
      writes := s.writes ++ [(frm.page_id, frm.data)] }
  else s

/-- The frame-acquisition step shared by NewPgImp and FetchPgImp: pop
the front of the free list if possible, otherwise ask the replacer for
a victim; fail if neither yields a frame. -/
def BPMI.acquireFrame (s : BPMI) : Option (FrameId × BPMI) :=
  match s.free_list with
  | f :: rest => some (f, { s with free_list := rest })
  | [] =>
    match s.replacer.victim with
    | (some f, r) => some (f, { s with replacer := r })
    | (none, _) => none

/-- BufferPoolManagerInstance::NewPgImp: acquire a frame (or fail),
allocate a fresh page id, write the frame back if dirty, move the page
table from the frame's old page to the new one, and reinitialize the
frame (zero bytes, pin count 1, clean). -/
def BPMI.newPg (s : BPMI) : BPMI × Option (PageId × FrameId) :=
  match s.acquireFrame with
  | none => (s, none)
  | some (f, s1) =>
    let a := s1.allocatePage
    let new_id := a.1
    let s2 := a.2
    let s3 := s2.writeBackIfDirty f
    let s4 := { s3 with
      page_table := ptInsert (ptEraseOpt s3.page_table (s3.pages f).page_id) new_id f
      pages := updFn s3.pages f ⟨some new_id, 1, false, 0⟩ }
    (s4, some (new_id, f))

/-- BufferPoolManagerInstance::FetchPgImp: on a hit, untrack the frame
from the replacer and increment its pin count; on a miss, acquire a
frame, write it back if dirty, retarget the page table and load the
page's bytes from disk with pin count 1. -/
def BPMI.fetchPg (s : BPMI) (p : PageId) : BPMI × Option FrameId :=
  match ptLookup s.page_table p with
  | some f =>
    ({ s with
        replacer := s.replacer.pin f
        pages := updFn s.pages f
          { s.pages f with pin_count := (s.pages f).pin_count + 1 } },
     some f)
  | none =>
    match s.acquireFrame with
    | none => (s, none)
    | some (f, s1) =>
      let s2 := s1.writeBackIfDirty f
      let s3 := { s2 with
        page_table := ptInsert (ptEraseOpt s2.page_table (s2.pages f).page_id) p f
        pages := updFn s2.pages f ⟨some p, 1, false, s2.disk p⟩ }
      (s3, some f)

/-- BufferPoolManagerInstance::DeletePgImp: absent pages delete
trivially; a pinned page refuses; otherwise the page-table entry is
removed, the frame is untracked, its bytes zeroed and dirty cleared
(the frame's page_id field is left as the source leaves it), and the
frame is appended to the free list. -/
def BPMI.deletePg (s : BPMI) (p : PageId) : BPMI × Bool :=
  match ptLookup s.page_table p with
  | none => (s, true)
  | some f =>
    let frm := s.pages f
    if 0 < frm.pin_count then (s, false)
    else
      ({ s with
          page_table := ptErase s.page_table p
          replacer := s.replacer.pin f
          pages := updFn s.pages f { frm with data := 0, is_dirty := false }
          free_list := s.free_list ++ [f] }, true)

/-- BufferPoolManagerInstance::UnpinPgImp: fail if the page is not
resident; otherwise OR the dirty argument into the frame's dirty flag
first, then fail if the pin count is not positive, else decrement it
and track the frame in the replacer when it reaches zero. -/
def BPMI.unpinPg (s : BPMI) (p : PageId) (d : Bool) : BPMI × Bool :=
  match ptLookup s.page_table p with
  | none => (s, false)
  | some f =>
    let frm := { s.pages f with is_dirty := (s.pages f).is_dirty || d }
    let s1 := { s with pages := updFn s.pages f frm }
    if frm.pin_count ≤ 0 then (s1, false)
    else
      let frm2 := { frm with pin_count := frm.pin_count - 1 }
      let s2 := { s1 with pages := updFn s1.pages f frm2 }
      if frm2.pin_count = 0 then
        ({ s2 with replacer := s2.replacer.unpin f }, true)
      else (s2, true)

/-- BufferPoolManagerInstance::FlushPgImp: fail if the page is not
resident; if it is dirty write its bytes under the looked-up page id
and clear dirty; report success for any resident page. -/
def BPMI.flushPg (s : BPMI) (p : PageId) : BPMI × Bool :=
  match ptLookup s.page_table p with
  | none => (s, false)
  | some f =>
    let frm := s.pages f
    if frm.is_dirty then
      ({ s with
          pages := updFn s.pages f { frm with is_dirty := false }
          disk := updFn s.disk p frm.data
          writes := s.writes ++ [(some p, frm.data)] }, true)
    else (s, true)

/-- BufferPoolManagerInstance::FlushAllPgsImp: walk the frame array in
index order and write back every dirty frame. -/
def BPMI.flushAll (s : BPMI) : BPMI :=
  (List.range s.pool_size).foldl BPMI.writeBackIfDirty s

/-- A public operation on a buffer pool manager instance. -/
inductive Op where
  | fetch (p : PageId)
  | newPage
  | unpin (p : PageId) (d : Bool)
  | delete (p : PageId)
  | flush (p : PageId)
  | flushAll
deriving DecidableEq, Repr

/-- The state transition of one public operation (results discarded). -/
def BPMI.step (s : BPMI) : Op → BPMI
  | .fetch p => (s.fetchPg p).1
  | .newPage => s.newPg.1
  | .unpin p d => (s.unpinPg p d).1
  | .delete p => (s.deletePg p).1
  | .flush p => (s.flushPg p).1
  | .flushAll => s.flushAll

/-- Run a sequence of public operations. -/
def BPMI.run (s : BPMI) (ops : List Op) : BPMI := ops.foldl BPMI.step s

/-- The all-zero disk used for concrete executions. -/
def dzero : PageId → Nat := fun _ => 0

/-- Parallel (sharded) buffer pool manager state
(ParallelBufferPoolManager in src/buffer/parallel_buffer_pool_manager.cpp):
the vector of instances and the rotating start index. -/
structure PBPM where
  instances : List BPMI
  startIdx : Nat

/-- The ParallelBufferPoolManager constructor: num_instances instances
of the given pool size, instance i built with shard index i, and the
start index stored as 0. -/
def PBPM.init (num_instances pool_size : Nat) (disk : PageId → Nat) : PBPM :=
  { instances := (List.range num_instances).map
      (fun i => BPMI.init pool_size num_instances i disk)
    startIdx := 0 }

/-- ParallelBufferPoolManager::GetPoolSize as the source writes it:
the length of the instance vector. -/
def PBPM.poolSize (m : PBPM) : Nat := m.instances.length

/-- ParallelBufferPoolManager::GetBufferPoolManager: the index of the
instance responsible for a page id. -/
def PBPM.route (m : PBPM) (p : PageId) : Nat := p % m.instances.length

/-- The loop body of ParallelBufferPoolManager::NewPgImp: starting at
index, try each instance while index < instances.size(); on success
store (startIdx + 1) mod size into the cursor (startIdx itself was
never changed inside the loop) and return; when the index runs off the
end return null. The fuel argument counts the remaining iterations,
instances.size() - index at every call. -/
def PBPM.newPgAux (m : PBPM) (index : Nat) : Nat → PBPM × Option (PageId × FrameId)
  | 0 => (m, none)
  | fuel + 1 =>
    let r := (m.instances.getD index default).newPg
    match r.2 with
    | some pf =>
      ({ instances := m.instances.set index r.1
         startIdx := (m.startIdx + 1) % m.instances.length }, some pf)
    | none =>
      PBPM.newPgAux { m with instances := m.instances.set index r.1 } (index + 1) fuel

/-- ParallelBufferPoolManager::NewPgImp: run the loop from the stored
start index to the end of the instance vector. -/
def PBPM.newPg (m : PBPM) : PBPM × Option (PageId × FrameId) :=
  m.newPgAux m.startIdx (m.instances.length - m.startIdx)

/-- ParallelBufferPoolManager::FetchPgImp: route by page id mod the
number of instances. -/
def PBPM.fetchPg (m : PBPM) (p : PageId) : PBPM × Option FrameId :=
  let idx := m.route p
  let r := (m.instances.getD idx default).fetchPg p
  ({ m with instances := m.instances.set idx r.1 }, r.2)

/-- ParallelBufferPoolManager::UnpinPgImp: route by page id. -/
def PBPM.unpinPg (m : PBPM) (p : PageId) (d : Bool) : PBPM × Bool :=
  let idx := m.route p
  let r := (m.instances.getD idx default).unpinPg p d
  ({ m with instances := m.instances.set idx r.1 }, r.2)

/-- ParallelBufferPoolManager::FlushPgImp: route by page id. -/
def PBPM.flushPg (m : PBPM) (p : PageId) : PBPM × Bool :=
  let idx := m.route p
  let r := (m.instances.getD idx default).flushPg p
  ({ m with instances := m.instances.set idx r.1 }, r.2)

/-- ParallelBufferPoolManager::DeletePgImp: route by page id. -/
def PBPM.deletePg (m : PBPM) (p : PageId) : PBPM × Bool :=
  let idx := m.route p
  let r := (m.instances.getD idx default).deletePg p
  ({ m with instances := m.instances.set idx r.1 }, r.2)

/-- ParallelBufferPoolManager::FlushAllPgsImp: flush every instance. -/
def PBPM.flushAllPgs (m : PBPM) : PBPM :=
  { m with instances := m.instances.map BPMI.flushAll }

/-- A public operation on the parallel manager. -/
inductive POp where
  | fetch (p : PageId)
  | newPage
  | unpin (p : PageId) (d : Bool)
  | delete (p : PageId)
  | flush (p : PageId)
  | flushAll
deriving DecidableEq, Repr

/-- The state transition of one parallel-manager operation. -/
def PBPM.step (m : PBPM) : POp → PBPM
  | .fetch p => (m.fetchPg p).1
  | .newPage => m.newPg.1
  | .unpin p d => (m.unpinPg p d).1
  | .delete p => (m.deletePg p).1
  | .flush p => (m.flushPg p).1
  | .flushAll => m.flushAllPgs

/-- Run a sequence of parallel-manager operations. -/
def PBPM.run (m : PBPM) (ops : List POp) : PBPM := ops.foldl PBPM.step m

/-- The invariant of spec section 3: a frame is in the replacer's
evictable set iff it is page-table-mapped and its pin count is 0. -/
def BPMI.evictableInv (s : BPMI) : Prop :=
  ∀ f : FrameId, f ∈ s.replacer.cache ↔
    ((∃ p, ptLookup s.page_table p = some f) ∧ (s.pages f).pin_count = 0)

/-- A pool of one frame after one new_page: page 0 is pinned in frame
0, the free list and the replacer are empty (pool exhausted). -/
def s1new : BPMI := (BPMI.init 1 1 0 dzero).run [.newPage]

/-- A pool of one frame after new_page and a clean unpin: page 0 is
resident in frame 0 with pin count 0 and a clean frame. -/
def sZeroPin : BPMI := (BPMI.init 1 1 0 dzero).run [.newPage, .unpin 0 false]

/-- A pool of one frame after new_page and a dirty unpin: page 0 is
resident in frame 0 with pin count 0 and a dirty frame. -/
def sDirtyZeroPin : BPMI := (BPMI.init 1 1 0 dzero).run [.newPage, .unpin 0 true]

/-- A pool of two frames driven through new_page, unpin, delete,
fetch, unpin, new_page: the deletion leaves frame 0's page_id field
holding page 0, the fetch reloads page 0 into frame 1, and the final
new_page erases the live page-table entry for page 0 while reusing
frame 0. -/
def sC1 : BPMI := (BPMI.init 2 1 0 dzero).run
  [.newPage, .unpin 0 false, .delete 0, .fetch 0, .unpin 0 false, .newPage]

/-- Two shards of one frame each, driven so that the cursor rests at
1, shard 1 is fully pinned and shard 0 holds an evictable frame. -/
def pm5 : PBPM := (PBPM.init 2 1 dzero).run
  [.newPage, .newPage, .unpin 0 false, .newPage, .unpin 2 false]

lemma updFn_self {α : Type} (m : Nat → α) (k : Nat) (v : α) : updFn m k v k = v := by
  simp [updFn]

lemma ptLookup_mem {t : List (PageId × FrameId)} {p : PageId} {f : FrameId}
    (h : ptLookup t p = some f) : (p, f) ∈ t := by
  induction t with
  | nil => simp [ptLookup] at h
  | cons kv rest ih =>
    obtain ⟨k, v⟩ := kv
    simp only [ptLookup] at h
    by_cases hk : k = p
    · rw [if_pos hk] at h
      cases h
      subst hk
      exact List.mem_cons_self _ _
    · rw [if_neg hk] at h
      exact List.mem_cons_of_mem _ (ih h)

lemma ptLookup_erase_self (t : List (PageId × FrameId)) (p : PageId) :
    ptLookup (ptErase t p) p = none := by
  induction t with
  | nil => rfl
  | cons kv rest ih =>
    obtain ⟨k, v⟩ := kv
    by_cases hk : k = p
    · simpa [ptErase, hk] using ih
    · simpa [ptErase, ptLookup, hk] using ih

lemma LRU.mem_unpin_self (r : LRU) (f : FrameId) : f ∈ (r.unpin f).cache := by
  unfold LRU.unpin
  split_ifs with h1 h2
  · exact h1
  · exact List.mem_cons_self _ _
  · exact List.mem_cons_self _ _

lemma LRU.not_mem_pin_self (r : LRU) (f : FrameId) (hnd : r.cache.Nodup) :
    f ∉ (r.pin f).cache := by
  unfold LRU.pin
  split_ifs with h1
  · intro hmem
    exact ((List.Nodup.mem_erase_iff hnd).mp hmem).1 rfl
  · exact h1

lemma writeBack_num (s : BPMI) (f : FrameId) :
    (s.writeBackIfDirty f).num_instances = s.num_instances := by
  simp only [BPMI.writeBackIfDirty]
  split_ifs <;> rfl

lemma writeBack_next (s : BPMI) (f : FrameId) :
    (s.writeBackIfDirty f).next_page_id = s.next_page_id := by
  simp only [BPMI.writeBackIfDirty]
  split_ifs <;> rfl

lemma writeBack_replacer (s : BPMI) (f : FrameId) :
    (s.writeBackIfDirty f).replacer = s.replacer := by
  simp only [BPMI.writeBackIfDirty]
  split_ifs <;> rfl

lemma writeBack_page_table (s : BPMI) (f : FrameId) :
    (s.writeBackIfDirty f).page_table = s.page_table := by
  simp only [BPMI.writeBackIfDirty]
  split_ifs <;> rfl

lemma writeBack_free_list (s : BPMI) (f : FrameId) :
    (s.writeBackIfDirty f).free_list = s.free_list := by
  simp only [BPMI.writeBackIfDirty]
  split_ifs <;> rfl

lemma acquireFrame_proj (s : BPMI) (f : FrameId) (s1 : BPMI)
    (h : s.acquireFrame = some (f, s1)) :
    s1.num_instances = s.num_instances ∧
    s1.next_page_id = s.next_page_id ∧
    s1.page_table = s.page_table ∧
    (s1.replacer.cache = s.replacer.cache ∨ s1.replacer.cache = s.replacer.cache.dropLast) := by
  unfold BPMI.acquireFrame at h
  cases hf : s.free_list with
  | cons a rest =>
    rw [hf] at h
    cases h
    exact ⟨rfl, rfl, rfl, Or.inl rfl⟩
  | nil =>
    rw [hf] at h
    unfold LRU.victim at h
    cases hg : s.replacer.cache.getLast? with
    | none =>
      rw [hg] at h
      cases h
    | some v =>
      rw [hg] at h
      cases h
      exact ⟨rfl, rfl, rfl, Or.inr rfl⟩

lemma foldl_writeBack_proj (l : List FrameId) : ∀ (s : BPMI),
    ((l.foldl BPMI.writeBackIfDirty s).num_instances = s.num_instances) ∧
    ((l.foldl BPMI.writeBackIfDirty s).next_page_id = s.next_page_id) ∧
    ((l.foldl BPMI.writeBackIfDirty s).replacer = s.replacer) := by
  induction l with
  | nil => intro s; exact ⟨rfl, rfl, rfl⟩
  | cons a rest ih =>
    intro s
    obtain ⟨g1, g2, g3⟩ := ih (s.writeBackIfDirty a)
    refine ⟨?_, ?_, ?_⟩
    · rw [List.foldl_cons, g1, writeBack_num]
    · rw [List.foldl_cons, g2, writeBack_next]
    · rw [List.foldl_cons, g3, writeBack_replacer]

lemma step_counter (s : BPMI) (op : Op) :
    ((s.step op).num_instances = s.num_instances) ∧
    (∃ m : Nat, (s.step op).next_page_id = s.next_page_id + m * s.num_instances) := by
  cases op with
  | fetch p =>
    simp only [BPMI.step, BPMI.fetchPg]
    cases hl : ptLookup s.page_table p with
    | some f => exact ⟨rfl, 0, by simp⟩
    | none =>
      cases ha : s.acquireFrame with
      | none => exact ⟨rfl, 0, by simp⟩
      | some fs =>
        obtain ⟨f, s1⟩ := fs
        obtain ⟨h1, h2, h3, h4⟩ := acquireFrame_proj s f s1 ha
        refine ⟨?_, 0, ?_⟩
        · show (s1.writeBackIfDirty f).num_instances = s.num_instances
          rw [writeBack_num, h1]
        · show (s1.writeBackIfDirty f).next_page_id = s.next_page_id + 0 * s.num_instances
          rw [writeBack_next, h2]
          simp
  | newPage =>
    simp only [BPMI.step, BPMI.newPg]
    cases ha : s.acquireFrame with
    | none => exact ⟨rfl, 0, by simp⟩
    | some fs =>
      obtain ⟨f, s1⟩ := fs
      obtain ⟨h1, h2, h3, h4⟩ := acquireFrame_proj s f s1 ha
      refine ⟨?_, 1, ?_⟩
      · show ((BPMI.allocatePage s1).2.writeBackIfDirty f).num_instances = s.num_instances
        rw [writeBack_num]
        show s1.num_instances = s.num_instances
        exact h1
      · show ((BPMI.allocatePage s1).2.writeBackIfDirty f).next_page_id = s.next_page_id + 1 * s.num_instances
        rw [writeBack_next]
        show s1.next_page_id + s1.num_instances = s.next_page_id + 1 * s.num_instances
        rw [h1, h2]
        ring
  | unpin p d =>
    simp only [BPMI.step, BPMI.unpinPg]
    cases hl : ptLookup s.page_table p with
    | none => exact ⟨rfl, 0, by simp⟩
    | some f =>
      dsimp only
      split_ifs <;> exact ⟨rfl, 0, by simp⟩
  | delete p =>
    simp only [BPMI.step, BPMI.deletePg]
    cases hl : ptLookup s.page_table p with
    | none => exact ⟨rfl, 0, by simp⟩
    | some f =>
      dsimp only
      split_ifs <;> exact ⟨rfl, 0, by simp⟩
  | flush p =>
    simp only [BPMI.step, BPMI.flushPg]
    cases hl : ptLookup s.page_table p with
    | none => exact ⟨rfl, 0, by simp⟩
    | some f =>
      dsimp only
      split_ifs <;> exact ⟨rfl, 0, by simp⟩
  | flushAll =>
    simp only [BPMI.step, BPMI.flushAll]
    obtain ⟨g1, g2, g3⟩ := foldl_writeBack_proj (List.range s.pool_size) s
    exact ⟨g1, 0, by simp [g2]⟩

lemma run_counter (ops : List Op) : ∀ (s : BPMI),
    ((s.run ops).num_instances = s.num_instances) ∧
    (∃ m : Nat, (s.run ops).next_page_id = s.next_page_id + m * s.num_instances) := by
  induction ops with
  | nil => intro s; exact ⟨rfl, 0, by simp [BPMI.run]⟩
  | cons op rest ih =>
    intro s
    obtain ⟨h1, m1, h2⟩ := step_counter s op
    obtain ⟨g1, m2, g2⟩ := ih (s.step op)
    refine ⟨?_, m1 + m2, ?_⟩
    · show ((s.step op).run rest).num_instances = s.num_instances
      rw [g1, h1]
    · show ((s.step op).run rest).next_page_id = s.next_page_id + (m1 + m2) * s.num_instances
      rw [g2, h2, h1]
      ring

lemma newPg_ret_id (s : BPMI) (p : PageId) (f : FrameId)
    (h : s.newPg.2 = some (p, f)) : p = s.next_page_id := by
  unfold BPMI.newPg at h
  cases ha : s.acquireFrame with
  | none =>
    rw [ha] at h
    simp at h
  | some fs =>
    obtain ⟨f0, s1⟩ := fs
    rw [ha] at h
    simp only [BPMI.allocatePage] at h
    have h2 : some (s1.next_page_id, f0) = some (p, f) := h
    have h3 : s1.next_page_id = p := by
      injection h2 with h4
      exact congrArg Prod.fst h4
    rw [← h3]
    exact (acquireFrame_proj s f0 s1 ha).2.1

lemma LRU.pin_nodup (r : LRU) (f : FrameId) (h : r.cache.Nodup) :
    (r.pin f).cache.Nodup := by
  unfold LRU.pin
  split_ifs
  · exact h.erase f
  · exact h

lemma LRU.unpin_nodup (r : LRU) (f : FrameId) (h : r.cache.Nodup) :
    (r.unpin f).cache.Nodup := by
  unfold LRU.unpin
  split_ifs with h1 h2
  · exact h
  · refine List.nodup_cons.mpr ⟨?_, (List.dropLast_sublist _).nodup h⟩
    intro hmem
    exact h1 ((List.dropLast_sublist _).subset hmem)
  · exact List.nodup_cons.mpr ⟨h1, h⟩

lemma step_nodup (s : BPMI) (op : Op) (h : s.replacer.cache.Nodup) :
    (s.step op).replacer.cache.Nodup := by
  cases op with
  | fetch p =>
    simp only [BPMI.step, BPMI.fetchPg]
    cases hl : ptLookup s.page_table p with
    | some f => exact LRU.pin_nodup _ _ h
    | none =>
      cases ha : s.acquireFrame with
      | none => exact h
      | some fs =>
        obtain ⟨f, s1⟩ := fs
        obtain ⟨h1, h2, h3, h4⟩ := acquireFrame_proj s f s1 ha
        show (s1.writeBackIfDirty f).replacer.cache.Nodup
        rw [writeBack_replacer]
        rcases h4 with h4 | h4 <;> rw [h4]
        · exact h
        · exact (List.dropLast_sublist _).nodup h
  | newPage =>
    simp only [BPMI.step, BPMI.newPg]
    cases ha : s.acquireFrame with
    | none => exact h
    | some fs =>
      obtain ⟨f, s1⟩ := fs
      obtain ⟨h1, h2, h3, h4⟩ := acquireFrame_proj s f s1 ha
      show ((BPMI.allocatePage s1).2.writeBackIfDirty f).replacer.cache.Nodup
      rw [writeBack_replacer]
      show s1.replacer.cache.Nodup
      rcases h4 with h4 | h4 <;> rw [h4]
      · exact h
      · exact (List.dropLast_sublist _).nodup h
  | unpin p d =>
    simp only [BPMI.step, BPMI.unpinPg]
    cases hl : ptLookup s.page_table p with
    | none => exact h
    | some f =>
      dsimp only
      split_ifs <;> first | exact h | exact LRU.unpin_nodup _ _ h
  | delete p =>
    simp only [BPMI.step, BPMI.deletePg]
    cases hl : ptLookup s.page_table p with
    | none => exact h
    | some f =>
      dsimp only
      split_ifs <;> first | exact h | exact LRU.pin_nodup _ _ h
  | flush p =>
    simp only [BPMI.step, BPMI.flushPg]
    cases hl : ptLookup s.page_table p with
    | none => exact h
    | some f =>
      dsimp only
      split_ifs <;> exact h
  | flushAll =>
    simp only [BPMI.step, BPMI.flushAll]
    rw [(foldl_writeBack_proj (List.range s.pool_size) s).2.2]
    exact h

lemma run_nodup (ops : List Op) : ∀ (s : BPMI), s.replacer.cache.Nodup →
    (s.run ops).replacer.cache.Nodup := by
  induction ops with
  | nil => intro s h; exact h
  | cons op rest ih =>
    intro s h
    show ((s.step op).run rest).replacer.cache.Nodup
    exact ih _ (step_nodup s op h)

lemma fetch_hit_eq (s : BPMI) (p : PageId) (f : FrameId)
    (hres : ptLookup s.page_table p = some f) :
    s.fetchPg p = ({ s with replacer := s.replacer.pin f, pages := updFn s.pages f ({ s.pages f with pin_count := (s.pages f).pin_count + 1 }) }, some f) := by
  simp [BPMI.fetchPg, hres]

lemma run_fetch_hit (p : PageId) (f : FrameId) : ∀ (k : Nat) (s : BPMI),
    ptLookup s.page_table p = some f → s.replacer.cache.Nodup →
    (ptLookup (s.run (List.replicate k (Op.fetch p))).page_table p = some f ∧
     ((s.run (List.replicate k (Op.fetch p))).pages f).pin_count = (s.pages f).pin_count + (k : Int) ∧
     (s.run (List.replicate k (Op.fetch p))).replacer.cache.Nodup ∧
     (1 ≤ k → f ∉ (s.run (List.replicate k (Op.fetch p))).replacer.cache)) := by
  intro k
  induction k with
  | zero =>
    intro s hres hnd
    refine ⟨hres, by simp [BPMI.run], hnd, ?_⟩
    intro hk
    exact absurd hk (by decide)
  | succ k ih =>
    intro s hres hnd
    have hstep : s.run (List.replicate (k + 1) (Op.fetch p)) =
        ((s.fetchPg p).1).run (List.replicate k (Op.fetch p)) := by
      rw [List.replicate_succ]
      rfl
    rw [fetch_hit_eq s p f hres] at hstep
    have hres1 : ptLookup ({ s with replacer := s.replacer.pin f, pages := updFn s.pages f ({ s.pages f with pin_count := (s.pages f).pin_count + 1 }) } : BPMI).page_table p = some f := hres
    have hnd1 : ({ s with replacer := s.replacer.pin f, pages := updFn s.pages f ({ s.pages f with pin_count := (s.pages f).pin_count + 1 }) } : BPMI).replacer.cache.Nodup :=
      LRU.pin_nodup _ _ hnd
    obtain ⟨g1, g2, g3, g4⟩ := ih _ hres1 hnd1
    rw [hstep]
    refine ⟨g1, ?_, g3, ?_⟩
    · rw [g2]
      simp only [updFn_self]
      push_cast
      ring
    · intro _
      rcases Nat.eq_zero_or_pos k with hk | hk
      · subst hk
        show f ∉ (BPMI.run _ []).replacer.cache
        exact LRU.not_mem_pin_self s.replacer f hnd
      · exact g4 hk

lemma unpin_step_parts (t : BPMI) (p : PageId) (f : FrameId)
    (hres : ptLookup t.page_table p = some f) (hpos : 0 < (t.pages f).pin_count) :
    ptLookup ((t.unpinPg p false).1).page_table p = some f ∧
    (((t.unpinPg p false).1).pages f).pin_count = (t.pages f).pin_count - 1 ∧
    ((t.pages f).pin_count - 1 ≠ 0 → ((t.unpinPg p false).1).replacer = t.replacer) ∧
    ((t.pages f).pin_count - 1 = 0 → ((t.unpinPg p false).1).replacer = t.replacer.unpin f) := by
  simp only [BPMI.unpinPg, hres]
  split_ifs with h0 h1
  · omega
  · refine ⟨hres, by simp [updFn_self], ?_, ?_⟩
    · intro hne
      exact absurd h1 hne
    · intro _
      rfl
  · refine ⟨hres, by simp [updFn_self], ?_, ?_⟩
    · intro _
      rfl
    · intro he
      exact absurd he h1

lemma run_unpin_count (p : PageId) (f : FrameId) : ∀ (n : Nat) (t : BPMI),
    ptLookup t.page_table p = some f →
    (t.pages f).pin_count = (n : Int) →
    f ∉ t.replacer.cache →
    ((∀ j : Nat, j < n → f ∉ (t.run (List.replicate j (Op.unpin p false))).replacer.cache) ∧
     (0 < n → f ∈ (t.run (List.replicate n (Op.unpin p false))).replacer.cache)) := by
  intro n
  induction n with
  | zero =>
    intro t hres hpin hout
    refine ⟨?_, ?_⟩
    · intro j hj
      exact absurd hj (by omega)
    · intro h0
      exact absurd h0 (by omega)
  | succ n ih =>
    intro t hres hpin hout
    have hpos : 0 < (t.pages f).pin_count := by
      rw [hpin]
      positivity
    obtain ⟨q1, q2, q3, q4⟩ := unpin_step_parts t p f hres hpos
    have hstep : ∀ l : List Op, t.run (Op.unpin p false :: l) = ((t.unpinPg p false).1).run l := by
      intro l
      rfl
    have hpin1 : (((t.unpinPg p false).1).pages f).pin_count = (n : Int) := by
      rw [q2, hpin]
      push_cast
      ring
    rcases Nat.eq_zero_or_pos n with hn | hn
    · subst hn
      refine ⟨?_, ?_⟩
      · intro j hj
        have : j = 0 := by omega
        subst this
        exact hout
      · intro _
        rw [List.replicate_succ, hstep]
        show f ∈ ((t.unpinPg p false).1).replacer.cache
        rw [q4 (by rw [hpin]; simp)]
        exact LRU.mem_unpin_self _ _
    · have hout1 : f ∉ ((t.unpinPg p false).1).replacer.cache := by
        rw [q3 (by rw [hpin]; push_cast; omega)]
        exact hout
      obtain ⟨g1, g2⟩ := ih ((t.unpinPg p false).1) q1 hpin1 hout1
      refine ⟨?_, ?_⟩
      · intro j hj
        cases j with
        | zero => exact hout
        | succ j =>
          rw [List.replicate_succ, hstep]
          exact g1 j (by omega)
      · intro _
        rw [List.replicate_succ, hstep]
        exact g2 hn

/-- C1: the claimed invariant — a frame is in the replacer's evictable
set iff it is page-table-mapped with pin count 0 after every public
operation from a fresh instance — fails on the code: after the
operation sequence new_page, unpin 0, delete 0, fetch 0, unpin 0,
new_page on a two-frame pool, frame 1 is evictable yet mapped by no
page-table entry, because DeletePgImp leaves the deleted frame's
page_id field stale and the final NewPgImp erases the live entry for
page 0 through it. -/
theorem evictable_inv_violated :
    sC1.replacer.cache = [1] ∧
    ptLookup sC1.page_table 0 = none ∧
    (sC1.pages 1).page_id = some 0 ∧
    (sC1.pages 1).pin_count = 0 ∧
    ¬ sC1.evictableInv := by
  refine ⟨by decide, by decide, by decide, by decide, ?_⟩
  intro h
  obtain ⟨⟨p, hp⟩, -⟩ := (h 1).mp (by decide)
  have hm := ptLookup_mem hp
  rw [show sC1.page_table = [(1, 0)] from by decide] at hm
  simp at hm

/-- C3: when new_page fails because the free list is empty and the
replacer tracks nothing, it returns the failure result and the state —
page table, free list, replacer and the page-id allocation counter —
is exactly the state before the call. -/
theorem new_page_exhausted_noop (s : BPMI)
    (hfree : s.free_list = []) (hcache : s.replacer.cache = []) :
    s.newPg = (s, none) := by
  simp [BPMI.newPg, BPMI.acquireFrame, LRU.victim, hfree, hcache]

/-- Witness for C3 at the exhausted one-frame pool. -/
theorem new_page_exhausted_noop_witness :
    s1new.free_list = [] ∧ s1new.replacer.cache = [] ∧
    s1new.newPg = (s1new, none) :=
  ⟨by decide, by decide, new_page_exhausted_noop s1new (by decide) (by decide)⟩

/-- C4 counterexample: unpin on a resident page whose pin count is
already zero does return false, but it is not true that the frame's
state including its dirty flag is left unmodified — a true is_dirty
argument turns the clean frame dirty before the failure is detected. -/
theorem unpin_zero_pin_dirties_frame :
    ptLookup sZeroPin.page_table 0 = some 0 ∧
    (sZeroPin.pages 0).pin_count = 0 ∧
    (sZeroPin.pages 0).is_dirty = false ∧
    (sZeroPin.unpinPg 0 true).2 = false ∧
    ((sZeroPin.unpinPg 0 true).1.pages 0).is_dirty = true := by
  refine ⟨by decide, by decide, by decide, by decide, by decide⟩

/-- C4 as amended: unpin returns false when the page is not resident
(leaving the state unchanged), and returns false when the page is
resident with pin count at most zero; in that failure case the pin
count is not decremented and the only state change is that the
is_dirty argument has been ORed into the frame's dirty flag. -/
theorem unpin_failure_cases (s : BPMI) (p : PageId) (d : Bool) :
    (ptLookup s.page_table p = none → s.unpinPg p d = (s, false)) ∧
    (∀ f, ptLookup s.page_table p = some f → (s.pages f).pin_count ≤ 0 →
      s.unpinPg p d =
        ({ s with pages := updFn s.pages f ({ s.pages f with is_dirty := (s.pages f).is_dirty || d }) }, false)) := by
  constructor
  · intro h
    simp [BPMI.unpinPg, h]
  · intro f hf hp
    simp only [BPMI.unpinPg, hf]
    split_ifs
    · rfl

/-- Witness for the amended C4 at the zero-pin one-frame pool. -/
theorem unpin_failure_cases_witness :
    ptLookup sZeroPin.page_table 0 = some 0 ∧ (sZeroPin.pages 0).pin_count ≤ 0 ∧
    sZeroPin.unpinPg 0 true =
      ({ sZeroPin with pages := updFn sZeroPin.pages 0 ({ sZeroPin.pages 0 with is_dirty := (sZeroPin.pages 0).is_dirty || true }) }, false) :=
  ⟨by decide, by decide, (unpin_failure_cases sZeroPin 0 true).2 0 (by decide) (by decide)⟩

/-- C5: a successful unpin of a resident page with positive pin count
returns true, ORs the is_dirty argument into the frame's dirty flag,
decrements the pin count by one, and if the pin count reaches zero the
frame is tracked in the replacer. -/
theorem unpin_success_effects (s : BPMI) (p : PageId) (f : FrameId) (d : Bool)
    (hres : ptLookup s.page_table p = some f)
    (hpin : 0 < (s.pages f).pin_count) :
    (s.unpinPg p d).2 = true ∧
    (s.unpinPg p d).1.pages f =
      { s.pages f with is_dirty := (s.pages f).is_dirty || d,
                       pin_count := (s.pages f).pin_count - 1 } ∧
    ((s.pages f).pin_count = 1 → f ∈ (s.unpinPg p d).1.replacer.cache) := by
  simp only [BPMI.unpinPg, hres]
  split_ifs with h0 h1
  · omega
  · refine ⟨rfl, ?_, ?_⟩
    · simp [updFn_self]
    · intro _
      exact LRU.mem_unpin_self _ _
  · refine ⟨rfl, ?_, ?_⟩
    · simp [updFn_self]
    · intro hone
      simp at h1
      omega

/-- Witness for C5 at the freshly created pinned page. -/
theorem unpin_success_effects_witness :
    ptLookup s1new.page_table 0 = some 0 ∧ 0 < (s1new.pages 0).pin_count ∧
    ((s1new.unpinPg 0 true).2 = true ∧
     (s1new.unpinPg 0 true).1.pages 0 =
       { s1new.pages 0 with is_dirty := (s1new.pages 0).is_dirty || true,
                            pin_count := (s1new.pages 0).pin_count - 1 } ∧
     ((s1new.pages 0).pin_count = 1 → 0 ∈ (s1new.unpinPg 0 true).1.replacer.cache)) :=
  ⟨by decide, by decide, unpin_success_effects s1new 0 0 true (by decide) (by decide)⟩

/-- C6: the parallel manager's new_page does not satisfy the claim: in
state pm5 the cursor is 1, instance 0 alone could produce a page (its
new_page returns page 4 in frame 0), yet the call returns the failure
result after trying only instance 1, and the cursor does not advance
on the failed call. -/
theorem parallel_new_page_no_wraparound :
    pm5.startIdx = 1 ∧
    pm5.newPg.2 = none ∧
    pm5.newPg.1.startIdx = 1 ∧
    pm5.instances.map (fun b => b.newPg.2) = [some (4, 0), none] := by
  refine ⟨by decide, by decide, by decide, by decide⟩

/-- C7: the parallel manager's pool_size as coded returns the number
of instances (here 2), not the number of instances times the
per-instance pool size (here 2 times 3). -/
theorem parallel_pool_size_eval :
    PBPM.poolSize (PBPM.init 2 3 dzero) = 2 ∧ (2 : Nat) ≠ 2 * 3 := by
  constructor
  · decide
  · decide

/-- C8: calling track (LRUReplacer::Unpin) on an already-tracked frame
is a no-op: the tracked set, the recency order and the size are
unchanged and recency is not refreshed. -/
theorem lru_track_idempotent_on_tracked (r : LRU) (f : FrameId) (h : f ∈ r.cache) :
    r.unpin f = r := by
  unfold LRU.unpin
  rw [if_pos h]

/-- Witness for C8 on a two-element replacer. -/
theorem lru_track_idempotent_on_tracked_witness :
    1 ∈ (LRU.mk [1, 2] 2).cache ∧ LRU.unpin (LRU.mk [1, 2] 2) 1 = LRU.mk [1, 2] 2 :=
  ⟨by decide, lru_track_idempotent_on_tracked (LRU.mk [1, 2] 2) 1 (by decide)⟩

/-- C2: fetching a page that is resident in some reachable state
increments its frame's pin count by one, removes the frame from the
replacer's evictable set and returns that frame; consequently a page
fetched k times from pin count 0 requires exactly k unpins before the
frame reappears in the replacer's evictable set, where victim() may
select it. -/
theorem fetch_pins_and_k_unpins (pool N i : Nat) (d : PageId → Nat) (ops : List Op)
    (p : PageId) (f : FrameId)
    (hres : ptLookup ((BPMI.init pool N i d).run ops).page_table p = some f) :
    (((BPMI.init pool N i d).run ops).fetchPg p).2 = some f ∧
    ((((BPMI.init pool N i d).run ops).fetchPg p).1.pages f).pin_count =
      (((BPMI.init pool N i d).run ops).pages f).pin_count + 1 ∧
    f ∉ (((BPMI.init pool N i d).run ops).fetchPg p).1.replacer.cache ∧
    ((((BPMI.init pool N i d).run ops).pages f).pin_count = 0 →
      ∀ k : Nat, 1 ≤ k →
        ((∀ j : Nat, j < k →
           f ∉ ((((BPMI.init pool N i d).run ops).run (List.replicate k (Op.fetch p))).run
                (List.replicate j (Op.unpin p false))).replacer.cache) ∧
         f ∈ ((((BPMI.init pool N i d).run ops).run (List.replicate k (Op.fetch p))).run
                (List.replicate k (Op.unpin p false))).replacer.cache)) := by
  have hnd : ((BPMI.init pool N i d).run ops).replacer.cache.Nodup := by
    apply run_nodup
    exact List.nodup_nil
  refine ⟨?_, ?_, ?_, ?_⟩
  · rw [fetch_hit_eq _ p f hres]
  · rw [fetch_hit_eq _ p f hres]
    simp [updFn_self]
  · rw [fetch_hit_eq _ p f hres]
    exact LRU.not_mem_pin_self _ f hnd
  · intro hpin0 k hk
    obtain ⟨g1, g2, g3, g4⟩ := run_fetch_hit p f k _ hres hnd
    have hpink : ((((BPMI.init pool N i d).run ops).run (List.replicate k (Op.fetch p))).pages f).pin_count = (k : Int) := by
      rw [g2, hpin0]
      ring
    obtain ⟨w1, w2⟩ := run_unpin_count p f k _ g1 hpink (g4 hk)
    exact ⟨w1, w2 (by omega)⟩

/-- Witness for C2 on a two-frame pool with page 0 resident at pin count 0. -/
theorem fetch_pins_and_k_unpins_witness :
    ptLookup ((BPMI.init 2 1 0 dzero).run [Op.newPage, Op.unpin 0 false]).page_table 0 = some 0 ∧
    ((((BPMI.init 2 1 0 dzero).run [Op.newPage, Op.unpin 0 false]).fetchPg 0).2 = some 0 ∧
     ((((BPMI.init 2 1 0 dzero).run [Op.newPage, Op.unpin 0 false]).fetchPg 0).1.pages 0).pin_count =
       (((BPMI.init 2 1 0 dzero).run [Op.newPage, Op.unpin 0 false]).pages 0).pin_count + 1 ∧
     0 ∉ (((BPMI.init 2 1 0 dzero).run [Op.newPage, Op.unpin 0 false]).fetchPg 0).1.replacer.cache ∧
     ((((BPMI.init 2 1 0 dzero).run [Op.newPage, Op.unpin 0 false]).pages 0).pin_count = 0 →
       ∀ k : Nat, 1 ≤ k →
         ((∀ j : Nat, j < k →
            0 ∉ ((((BPMI.init 2 1 0 dzero).run [Op.newPage, Op.unpin 0 false]).run (List.replicate k (Op.fetch 0))).run
                 (List.replicate j (Op.unpin 0 false))).replacer.cache) ∧
          0 ∈ ((((BPMI.init 2 1 0 dzero).run [Op.newPage, Op.unpin 0 false]).run (List.replicate k (Op.fetch 0))).run
                 (List.replicate k (Op.unpin 0 false))).replacer.cache))) :=
  ⟨by decide, fetch_pins_and_k_unpins 2 1 0 dzero [Op.newPage, Op.unpin 0 false] 0 0 (by decide)⟩

/-- C9: every page id produced by an instance's new_page, in any
reachable state of an instance constructed with shard index i out of N
shards (i < N), satisfies page_id mod N = i, because the allocation
counter is seeded at i and advances by N on every allocation. -/
theorem new_page_id_mod (pool N i : Nat) (d : PageId → Nat) (hN : 0 < N) (hi : i < N)
    (ops : List Op) (p : PageId) (fr : FrameId)
    (hsucc : (((BPMI.init pool N i d).run ops).newPg).2 = some (p, fr)) :
    p % N = i := by
  have hid := newPg_ret_id _ _ _ hsucc
  obtain ⟨hnum, m, hnext⟩ := run_counter ops (BPMI.init pool N i d)
  subst hid
  rw [hnext]
  show (i + m * N) % N = i
  rw [Nat.add_mul_mod_self_right]
  exact Nat.mod_eq_of_lt hi

/-- Witness for C9: shard 1 of 3 produces page id 1. -/
theorem new_page_id_mod_witness :
    0 < 3 ∧ 1 < 3 ∧ (((BPMI.init 1 3 1 dzero).run []).newPg).2 = some (1, 0) ∧ 1 % 3 = 1 :=
  ⟨by decide, by decide, by decide,
   new_page_id_mod 1 3 1 dzero (by decide) (by decide) [] 1 0 (by decide)⟩

/-- C10: deleting a resident page with pin count zero and a dirty
frame returns true, performs no disk write (the write log is
unchanged, the dirty bytes are discarded), removes the page-table
entry and returns the frame to the free list; in contrast, eviction
inside new_page writes a dirty victim frame back to disk before
reuse. -/
theorem delete_discards_dirty (s : BPMI) (p : PageId) (f : FrameId)
    (hres : ptLookup s.page_table p = some f)
    (hpin : (s.pages f).pin_count = 0)
    (hdirty : (s.pages f).is_dirty = true) :
    ((s.deletePg p).2 = true ∧
     (s.deletePg p).1.writes = s.writes ∧
     (s.deletePg p).1.free_list = s.free_list ++ [f] ∧
     ptLookup (s.deletePg p).1.page_table p = none) ∧
    (∀ (t : BPMI) (v : FrameId) (r : LRU), t.free_list = [] →
      t.replacer.victim = (some v, r) → (t.pages v).is_dirty = true →
      t.newPg.1.writes = t.writes ++ [((t.pages v).page_id, (t.pages v).data)]) := by
  constructor
  · simp only [BPMI.deletePg, hres]
    split_ifs with h0
    · omega
    · exact ⟨rfl, rfl, rfl, ptLookup_erase_self _ _⟩
  · intro t v r hfree hvic hd
    simp only [BPMI.newPg, BPMI.acquireFrame, hfree, hvic, BPMI.allocatePage,
      BPMI.writeBackIfDirty]
    simp [hd]

/-- Witness for C10 at the dirty zero-pin one-frame pool. -/
theorem delete_discards_dirty_witness :
    ptLookup sDirtyZeroPin.page_table 0 = some 0 ∧
    (sDirtyZeroPin.pages 0).pin_count = 0 ∧
    (sDirtyZeroPin.pages 0).is_dirty = true ∧
    (((sDirtyZeroPin.deletePg 0).2 = true ∧
      (sDirtyZeroPin.deletePg 0).1.writes = sDirtyZeroPin.writes ∧
      (sDirtyZeroPin.deletePg 0).1.free_list = sDirtyZeroPin.free_list ++ [0] ∧
      ptLookup (sDirtyZeroPin.deletePg 0).1.page_table 0 = none) ∧
     (∀ (t : BPMI) (v : FrameId) (r : LRU), t.free_list = [] →
       t.replacer.victim = (some v, r) → (t.pages v).is_dirty = true →
       t.newPg.1.writes = t.writes ++ [((t.pages v).page_id, (t.pages v).data)])) :=
  ⟨by decide, by decide, by decide,
   delete_discards_dirty sDirtyZeroPin 0 0 (by decide) (by decide) (by decide)⟩

end DB445
